import Mathlib

/-!
Verification of the final-handler module (`src/index.js`).

The module builds a `finish(err)` closure that writes a terminal HTTP
response: a 404 not-found document when no error was given, otherwise an
error document whose status, headers and message are derived from the
error value, the response's current status, and the environment mode.

We shallowly embed the JavaScript code: duck-typed JavaScript values are
modelled by small inductive types that record exactly the distinctions
the code's `typeof`-style tests observe, machine effects are modelled by
explicit result records, and operations that can throw in JavaScript are
`Except`-valued.
-/

set_option autoImplicit false

namespace Finalhandler

/-- A JavaScript value sitting in a status-like slot (`err.status`,
`err.statusCode`, `res.statusCode`).  The code only distinguishes
numbers from everything else (`typeof v === 'number'`); `undef` is kept
separate from other non-numbers for fidelity to "absent or invalid". -/
inductive FieldVal where
  | undef
  | num (n : Int)
  | other
deriving DecidableEq, Repr

/-- The JavaScript value in the `err.headers` slot, as observed by
`getErrorHeaders`: falsy (`!err.headers`), a truthy non-object
(`typeof err.headers !== 'object'`), or a genuine object, modelled as
its own-key/value pairs. -/
inductive HeadersField where
  | absent
  | nonObject
  | obj (hs : List (String × String))
deriving DecidableEq, Repr

/-- An error value passed to `finish`, reduced to the attributes the
code inspects: `status`, `statusCode`, `headers`, `stack`, and
`toString` (`none` when `typeof err.toString !== 'function'`, e.g. an
object with no prototype; `some s` when calling it returns `s`). -/
structure ErrVal where
  status : FieldVal
  statusCode : FieldVal
  headers : HeadersField
  stack : Option String
  toStr : Option String
deriving DecidableEq, Repr

/-- A JavaScript value in a boolean slot: either an actual boolean, or
anything else (`typeof v !== 'boolean'`). -/
inductive BoolField where
  | boolean (b : Bool)
  | notBoolean
deriving DecidableEq, Repr

/-- The request attributes the code reads: `req.method`, the original
pathname as recovered by `parseUrl.original(req).pathname` (`none` when
that parse throws, e.g. `req.url` undefined), and whether the request
stream has already finished (`onFinished.isFinished(req)`). -/
structure Req where
  method : String
  originalPathname : Option String
  finished : Bool
deriving DecidableEq, Repr

/-- The response attributes the code reads before writing:
`res.headersSent` (possibly not a boolean on old Node), `res._header`
coerced to a boolean, and `res.statusCode`. -/
structure Res where
  headersSentFlag : BoolField
  hasHeaderBuf : Bool
  statusCode : FieldVal
deriving DecidableEq, Repr

/-- JavaScript string falsiness for an optional string: `undefined` and
`""` are falsy. -/
def jsFalsyStr : Option String → Bool
  | none => true
  | some s => s == ""

/-- JavaScript `a || b` for an optional string `a` and fallback `b`. -/
def jsOrStr (a : Option String) (b : String) : String :=
  match a with
  | none => b
  | some s => if s == "" then b else s

/-- Modelled from the spec: the external status-code-to-reason-phrase
lookup table (the `statuses` collaborator), restricted to the 4xx/5xx
codes it registers. -/
def statusMessages : List (Int × String) :=
  [ (400, "Bad Request"), (401, "Unauthorized"), (402, "Payment Required"),
    (403, "Forbidden"), (404, "Not Found"), (405, "Method Not Allowed"),
    (406, "Not Acceptable"), (407, "Proxy Authentication Required"),
    (408, "Request Timeout"), (409, "Conflict"), (410, "Gone"),
    (411, "Length Required"), (412, "Precondition Failed"),
    (413, "Payload Too Large"), (414, "URI Too Long"),
    (415, "Unsupported Media Type"), (416, "Range Not Satisfiable"),
    (417, "Expectation Failed"), (418, "I\x27m a Teapot"),
    (421, "Misdirected Request"), (422, "Unprocessable Entity"),
    (423, "Locked"), (424, "Failed Dependency"), (425, "Too Early"),
    (426, "Upgrade Required"), (428, "Precondition Required"),
    (429, "Too Many Requests"), (431, "Request Header Fields Too Large"),
    (451, "Unavailable For Legal Reasons"), (500, "Internal Server Error"),
    (501, "Not Implemented"), (502, "Bad Gateway"),
    (503, "Service Unavailable"), (504, "Gateway Timeout"),
    (505, "HTTP Version Not Supported"), (506, "Variant Also Negotiates"),
    (507, "Insufficient Storage"), (508, "Loop Detected"),
    (509, "Bandwidth Limit Exceeded"), (510, "Not Extended"),
    (511, "Network Authentication Required") ]

/-- `statuses.message[status]`: `none` when no phrase is registered. -/
def statusMessage (status : Int) : Option String :=
  (statusMessages.find? (fun p => p.1 == status)).map Prod.snd

/-- `statuses.message[status] || String(status)`, the fallback text used
by `getErrorMessage` and for `res.statusMessage`. -/
def statusText (status : Int) : String :=
  jsOrStr (statusMessage status) (toString status)

/-- Calling a possibly-missing JavaScript method: throws a `TypeError`
when the slot does not hold a function. -/
def jsCall (f : Option String) : Except String String :=
  match f with
  | some s => Except.ok s
  | none => Except.error "TypeError: not a function"

/-- `typeof v === 'number' && v >= 400 && v < 600`, the guard used twice
in `getErrorStatusCode` (src/index.js lines 123 and 128). -/
def isValidStatusNum : FieldVal → Bool
  | FieldVal.num n => decide (400 ≤ n) && decide (n < 600)
  | _ => false

/-- Numeric content of a status-like slot (only read under
`isValidStatusNum`). -/
def fieldNum : FieldVal → Int
  | FieldVal.num n => n
  | _ => 0

/-- `getErrorStatusCode` (src/index.js lines 121-133): check
`err.status` first, then `err.statusCode`; `undefined` when neither is a
number in `[400, 600)`. -/
def getErrorStatusCode (err : ErrVal) : Option Int :=
  if isValidStatusNum err.status then some (fieldNum err.status)
  else if isValidStatusNum err.statusCode then some (fieldNum err.statusCode)
  else none

/-- `getErrorHeaders` (src/index.js lines 73-87): `undefined` unless
`err.headers` is a truthy object, else a copy of its own properties. -/
def getErrorHeaders (err : ErrVal) : Option (List (String × String)) :=
  match err.headers with
  | HeadersField.obj hs => some hs
  | _ => none

/-- `getErrorMessage` (src/index.js lines 98-112): outside production
use `err.stack`, falling back to `err.toString()` when that is a
function; finally `msg || statuses.message[status] || String(status)`.
The `toString` call is `Except`-valued because calling a missing method
throws in JavaScript; the `typeof` guard is what prevents that. -/
def getErrorMessage (err : ErrVal) (status : Int) (env : String) : Except String String :=
  if env ≠ "production" then
    let msg := err.stack
    if jsFalsyStr msg && err.toStr.isSome then
      match jsCall err.toStr with
      | Except.error e => Except.error e
      | Except.ok m => Except.ok (jsOrStr (some m) (statusText status))
    else
      Except.ok (jsOrStr msg (statusText status))
  else
    Except.ok (statusText status)

/-- `parseUrl.original(req).pathname`: throws when the URL cannot be
parsed (e.g. `req.url` undefined). -/
def parseUrlOriginalPathname (req : Req) : Except String String :=
  match req.originalPathname with
  | some p => Except.ok p
  | none => Except.error "TypeError: cannot parse url"

/-- `getResourceName` (src/index.js lines 145-151): the original request
pathname, with the parse error caught and mapped to `"resource"`. -/
def getResourceName (req : Req) : String :=
  match parseUrlOriginalPathname req with
  | Except.ok p => p
  | Except.error _ => "resource"

/-- `getResponseStatusCode` (src/index.js lines 160-169): the response's
current status code, defaulted to 500 when not a number or outside
`[400, 599]`. -/
def getResponseStatusCode (res : Res) : Int :=
  match res.statusCode with
  | FieldVal.num n => if n < 400 ∨ 599 < n then 500 else n
  | _ => 500

/-- `headersSent` (src/index.js lines 178-182): `res.headersSent` when
it is a boolean, else `Boolean(res._header)`. -/
def headersSent (res : Res) : Bool :=
  match res.headersSentFlag with
  | BoolField.boolean b => b
  | BoolField.notBoolean => res.hasHeaderBuf

/-- Modelled from the spec: the external HTML-escaping collaborator
(escape of a single character: `&`, `<`, `>`, `"` and the apostrophe
become entities, everything else is unchanged). -/
def escapeHtmlChar (c : Char) : String :=
  if c = Char.ofNat 38 then "&amp;"
  else if c = Char.ofNat 60 then "&lt;"
  else if c = Char.ofNat 62 then "&gt;"
  else if c = Char.ofNat 34 then "&quot;"
  else if c = Char.ofNat 39 then "&#39;"
  else String.singleton c

/-- Modelled from the spec: the external HTML-escaping collaborator
applied to a whole string. -/
def escapeHtml (s : String) : String :=
  String.join (s.data.map escapeHtmlChar)

/-- `.replace(NEWLINE_REGEXP, '<br>')` (src/index.js line 51 with the
regexp `/\n/g` from line 35): every newline becomes `<br>`. -/
def replaceNewlines (s : String) : String :=
  String.join (s.data.map (fun c => if c = Char.ofNat 10 then "<br>" else String.singleton c))

/-- Left-to-right, non-overlapping replacement of each two consecutive
spaces by a space followed by `&nbsp;`, on the character list. -/
def replaceDoubleSpacesAux : List Char → List Char
  | c1 :: c2 :: rest =>
      if c1 = Char.ofNat 32 ∧ c2 = Char.ofNat 32 then
        Char.ofNat 32 :: (String.toList "&nbsp;") ++ replaceDoubleSpacesAux rest
      else
        c1 :: replaceDoubleSpacesAux (c2 :: rest)
  | l => l

/-- `.replace(DOUBLE_SPACE_REGEXP, ' &nbsp;')` (src/index.js line 52
with the regexp `/\x20{2}/g` from line 34): global regexp replacement
scans left to right without overlap. -/
def replaceDoubleSpaces (s : String) : String :=
  String.mk (replaceDoubleSpacesAux s.data)

/-- `createHtmlDocument` (src/index.js lines 49-64): escape the message,
convert newlines, convert double spaces, and wrap the result in the
fixed document. -/
def createHtmlDocument (message : String) : String :=
  let body := replaceDoubleSpaces (replaceNewlines (escapeHtml message))
  "<!DOCTYPE html>\n" ++
    "<html lang=\"en\">\n" ++
    "<head>\n" ++
    "<meta charset=\"utf-8\">\n" ++
    "<title>Error</title>\n" ++
    "</head>\n" ++
    "<body>\n" ++
    "<pre>" ++ body ++ "</pre>\n" ++
    "</body>\n" ++
    "</html>\n"

/-- A spec-side description of the `<pre>` contents, written after the
spec's words: first HTML-escape the raw message, then replace every
newline character with `<br>`, then convert each occurrence of two
consecutive spaces to a literal space plus the non-breaking-space
entity. -/
def specPreContents (message : String) : String :=
  replaceDoubleSpaces (replaceNewlines (escapeHtml message))

/-- A spec-side description of the whole document: the fixed HTML
template with title `Error` around the transformed message. -/
def specHtmlDocument (message : String) : String :=
  "<!DOCTYPE html>\n<html lang=\"en\">\n<head>\n<meta charset=\"utf-8\">\n" ++
    "<title>Error</title>\n</head>\n<body>\n<pre>" ++ specPreContents message ++
    "</pre>\n</body>\n</html>\n"

/-- An `errorDispatch` event payload (src/index.js lines 301-304). -/
structure Emit where
  event : String
  method : String
  url : String
deriving DecidableEq, Repr

/-- The observable outcome of a `finish` call that was allowed to
respond: the status, the headers taken from the error (if any), the
message handed to `sendResponse`, the events emitted on the app handle,
and whether the `onerror` callback was scheduled. -/
structure Responded where
  status : Int
  headers : Option (List (String × String))
  msg : String
  emits : List Emit
  onerrorScheduled : Bool
deriving DecidableEq, Repr

/-- The outcome of a `finish` call: either the headers-already-sent
early return (`res.end('')`, nothing else), or a full response. -/
inductive FinishResult where
  | alreadySent
  | responded (r : Responded)
deriving DecidableEq, Repr

/-- The returned `finish(err)` closure (src/index.js lines 267-315).
`encodeUrl` is the external percent-encoding collaborator, `env` the
environment mode computed at construction, `appEmit` whether
`opts.app && typeof opts.app.emit === 'function'`, `onerror` whether an
error callback was supplied.  `Except`-valued because the embedded
JavaScript operations can throw. -/
def finish (encodeUrl : String → String) (env : String) (appEmit onerror : Bool)
    (req : Req) (res : Res) (err : Option ErrVal) : Except String FinishResult :=
  if headersSent res then
    Except.ok FinishResult.alreadySent
  else
    match err with
    | some e =>
        let sc := getErrorStatusCode e
        let status : Int :=
          match sc with
          | none => getResponseStatusCode res
          | some s => s
        let headers : Option (List (String × String)) :=
          match sc with
          | none => none
          | some _ => getErrorHeaders e
        match getErrorMessage e status env with
        | Except.error ex => Except.error ex
        | Except.ok msg =>
            Except.ok (FinishResult.responded
              { status := status
                headers := headers
                msg := msg
                emits :=
                  if appEmit then
                    [{ event := "errorDispatch"
                       method := req.method
                       url := encodeUrl (getResourceName req) }]
                  else []
                onerrorScheduled := onerror })
    | none =>
        Except.ok (FinishResult.responded
          { status := 404
            headers := none
            msg := "Cannot " ++ req.method ++ " " ++ encodeUrl (getResourceName req)
            emits :=
              if appEmit then
                [{ event := "errorDispatch"
                   method := req.method
                   url := encodeUrl (getResourceName req) }]
              else []
            onerrorScheduled := false })

/-- The primitive actions `sendResponse` performs on its streams:
writing the response body, unpiping the request, registering the write
as a one-shot `onFinished` listener, resuming the request. -/
inductive SendAct where
  | writeBody
  | unpipeReq
  | registerWrite
  | resumeReq
deriving DecidableEq, Repr

/-- `sendResponse` (src/index.js lines 194-233), as the ordered list of
stream actions it performs, given whether `isFinished(req)` holds at the
call: write immediately when the request is already finished; otherwise
unpipe the request, register the write as an `onFinished` listener, and
resume the request. -/
def sendResponse (reqDone : Bool) : List SendAct :=
  if reqDone then [SendAct.writeBody]
  else [SendAct.unpipeReq, SendAct.registerWrite, SendAct.resumeReq]

/-- Events on the request/response streams over time. -/
inductive StreamEv where
  | reqFinished
  | bodyWrite
  | unpipeEv
  | registerEv
  | resumeEv
deriving DecidableEq, Repr

/-- The event each immediate action produces. -/
def actEv : SendAct → StreamEv
  | SendAct.writeBody => StreamEv.bodyWrite
  | SendAct.unpipeReq => StreamEv.unpipeEv
  | SendAct.registerWrite => StreamEv.registerEv
  | SendAct.resumeReq => StreamEv.resumeEv

/-- The full event timeline around a `sendResponse` call, under the
collaborator contracts: when `isFinished(req)` already holds the
request-finished event precedes the call; otherwise resuming the
drained, unpiped request guarantees the request eventually finishes,
at which point the listener registered via `onFinished` (the body
write) fires. -/
def sendTimeline (reqDone : Bool) : List StreamEv :=
  if reqDone then
    StreamEv.reqFinished :: (sendResponse reqDone).map actEv
  else
    (sendResponse reqDone).map actEv ++
      [StreamEv.reqFinished] ++
      (if (sendResponse reqDone).contains SendAct.registerWrite then
        [StreamEv.bodyWrite] else [])

/-! ### Helper lemmas -/

/-- The status `finish` derives in the error branch (src/index.js lines
282-287): the error's own status code when valid, else the response's. -/
def derivedStatus (res : Res) (e : ErrVal) : Int :=
  match getErrorStatusCode e with
  | none => getResponseStatusCode res
  | some s => s

/-- The headers `finish` forwards in the error branch (src/index.js
lines 284-290): only taken from the error when the status came from the
error. -/
def derivedHeaders (e : ErrVal) : Option (List (String × String)) :=
  match getErrorStatusCode e with
  | none => none
  | some _ => getErrorHeaders e

/-- The events `finish` emits on the app handle (src/index.js lines
300-305). -/
def dispatchEmits (encodeUrl : String → String) (appEmit : Bool) (req : Req) : List Emit :=
  if appEmit then
    [{ event := "errorDispatch", method := req.method,
       url := encodeUrl (getResourceName req) }]
  else []

theorem getErrorMessage_ok (e : ErrVal) (status : Int) (env : String) :
    ∃ m, getErrorMessage e status env = Except.ok m := by
  unfold getErrorMessage
  by_cases henv : env = "production"
  · simp [henv]
  · cases hts : e.toStr with
    | none =>
        simp only [ne_eq, henv, not_false_eq_true, if_true, hts, Option.isSome_none,
          Bool.and_false, Bool.false_eq_true, if_false]
        exact ⟨_, rfl⟩
    | some s =>
        simp only [ne_eq, henv, not_false_eq_true, if_true, hts, Option.isSome_some,
          Bool.and_true, jsCall]
        by_cases hfs : jsFalsyStr e.stack = true
        · simp only [hfs, if_true]
          exact ⟨_, rfl⟩
        · simp only [Bool.eq_false_iff.mpr hfs, Bool.false_eq_true, if_false]
          exact ⟨_, rfl⟩

theorem finish_none_eq (encodeUrl : String → String) (env : String)
    (appEmit onerror : Bool) (req : Req) (res : Res)
    (hhs : headersSent res = false) :
    finish encodeUrl env appEmit onerror req res none =
      Except.ok (FinishResult.responded
        { status := 404
          headers := none
          msg := "Cannot " ++ req.method ++ " " ++ encodeUrl (getResourceName req)
          emits := dispatchEmits encodeUrl appEmit req
          onerrorScheduled := false }) := by
  simp [finish, hhs, dispatchEmits]

theorem finish_some_eq (encodeUrl : String → String) (env : String)
    (appEmit onerror : Bool) (req : Req) (res : Res) (e : ErrVal) (m : String)
    (hhs : headersSent res = false)
    (hm : getErrorMessage e (derivedStatus res e) env = Except.ok m) :
    finish encodeUrl env appEmit onerror req res (some e) =
      Except.ok (FinishResult.responded
        { status := derivedStatus res e
          headers := derivedHeaders e
          msg := m
          emits := dispatchEmits encodeUrl appEmit req
          onerrorScheduled := onerror }) := by
  unfold finish
  rw [hhs]
  simp only [Bool.false_eq_true, if_false]
  cases hsc : getErrorStatusCode e with
  | none =>
      unfold derivedStatus at hm
      rw [hsc] at hm
      simp [hsc, hm, derivedStatus, derivedHeaders, dispatchEmits]
  | some s =>
      unfold derivedStatus at hm
      rw [hsc] at hm
      simp [hsc, hm, derivedStatus, derivedHeaders, dispatchEmits]

theorem finish_responded_fields (encodeUrl : String → String) (env : String)
    (appEmit onerror : Bool) (req : Req) (res : Res) (e : ErrVal) (r : Responded)
    (hok : finish encodeUrl env appEmit onerror req res (some e)
      = Except.ok (FinishResult.responded r)) :
    r.status = derivedStatus res e ∧ r.headers = derivedHeaders e ∧
      r.emits = dispatchEmits encodeUrl appEmit req := by
  by_cases hhs : headersSent res
  · rw [finish, if_pos hhs] at hok
    simp at hok
  · obtain ⟨m, hm⟩ := getErrorMessage_ok e (derivedStatus res e) env
    rw [finish_some_eq encodeUrl env appEmit onerror req res e m
      (Bool.eq_false_iff.mpr hhs) hm] at hok
    have hr : FinishResult.responded
        { status := derivedStatus res e, headers := derivedHeaders e, msg := m,
          emits := dispatchEmits encodeUrl appEmit req, onerrorScheduled := onerror }
        = FinishResult.responded r := by
      exact congrArg id (Except.ok.inj hok)
    cases FinishResult.responded.inj hr
    exact ⟨rfl, rfl, rfl⟩

/-! ### Claims -/

/-- Claim C1: for every error value carrying two status-like fields,
the primary field `status` is checked before the secondary field
`statusCode`; if the primary field is numeric and in the valid range it
is used and the secondary field is never consulted (the conclusion holds
for every value of `statusCode`); the secondary field is used only when
the primary field is absent or invalid. -/
theorem claim_C1_primary_status_wins (e : ErrVal) :
    (∀ n : Int, e.status = FieldVal.num n → 400 ≤ n → n < 600 →
      getErrorStatusCode e = some n)
    ∧ (isValidStatusNum e.status = false →
        getErrorStatusCode e =
          match e.statusCode with
          | FieldVal.num m => if 400 ≤ m ∧ m < 600 then some m else none
          | _ => none) := by
  constructor
  · intro n hs h4 h6
    simp [getErrorStatusCode, isValidStatusNum, hs, fieldNum, h4, h6]
  · intro hinv
    unfold getErrorStatusCode
    rw [hinv]
    simp only [Bool.false_eq_true, if_false]
    cases hsc : e.statusCode with
    | num m =>
        by_cases hm : 400 ≤ m ∧ m < 600
        · simp [isValidStatusNum, fieldNum, hm.1, hm.2, hm]
        · have : isValidStatusNum (FieldVal.num m) = false := by
            simp only [isValidStatusNum, Bool.and_eq_true, decide_eq_true_eq,
              Bool.and_eq_false_iff, decide_eq_false_iff_not]
            omega
          simp [this, hm]
    | undef => simp [isValidStatusNum]
    | other => simp [isValidStatusNum]

/-- Concrete instance of claim C1: a valid primary status 414 wins over
a valid, different secondary 503, and an invalid primary 50 defers to a
valid secondary 410. -/
theorem claim_C1_primary_status_wins_witness :
    getErrorStatusCode
        { status := FieldVal.num 414, statusCode := FieldVal.num 503,
          headers := HeadersField.absent, stack := none, toStr := none } = some 414
    ∧ getErrorStatusCode
        { status := FieldVal.num 50, statusCode := FieldVal.num 410,
          headers := HeadersField.absent, stack := none, toStr := none } = some 410 :=
  ⟨(claim_C1_primary_status_wins _).1 414 rfl (by decide) (by decide),
   by
    have h := (claim_C1_primary_status_wins
      { status := FieldVal.num 50, statusCode := FieldVal.num 410,
        headers := HeadersField.absent, stack := none, toStr := none }).2 (by decide)
    simpa using h⟩

theorem isValidStatusNum_bounds (v : FieldVal) (h : isValidStatusNum v = true) :
    400 ≤ fieldNum v ∧ fieldNum v ≤ 599 := by
  cases v with
  | num n =>
      simp only [isValidStatusNum, Bool.and_eq_true, decide_eq_true_eq] at h
      simp only [fieldNum]
      omega
  | undef => simp [isValidStatusNum] at h
  | other => simp [isValidStatusNum] at h

theorem getErrorStatusCode_range (e : ErrVal) (s : Int)
    (h : getErrorStatusCode e = some s) : 400 ≤ s ∧ s ≤ 599 := by
  unfold getErrorStatusCode at h
  by_cases h1 : isValidStatusNum e.status = true
  · rw [if_pos h1] at h
    cases Option.some.inj h
    exact isValidStatusNum_bounds _ h1
  · rw [if_neg (by simpa using h1)] at h
    by_cases h2 : isValidStatusNum e.statusCode = true
    · rw [if_pos h2] at h
      cases Option.some.inj h
      exact isValidStatusNum_bounds _ h2
    · rw [if_neg (by simpa using h2)] at h
      exact absurd h (by simp)

theorem getResponseStatusCode_range (res : Res) :
    400 ≤ getResponseStatusCode res ∧ getResponseStatusCode res ≤ 599 := by
  unfold getResponseStatusCode
  cases res.statusCode with
  | num n =>
      dsimp only
      constructor <;> (split <;> omega)
  | undef => exact ⟨by norm_num, by norm_num⟩
  | other => exact ⟨by norm_num, by norm_num⟩

/-- Shared concrete sample inputs for the witnesses. -/
def reqW : Req := { method := "GET", originalPathname := some "/foo", finished := true }

def resFresh : Res :=
  { headersSentFlag := BoolField.boolean false, hasHeaderBuf := false,
    statusCode := FieldVal.num 200 }

def resSent : Res :=
  { headersSentFlag := BoolField.boolean true, hasHeaderBuf := true,
    statusCode := FieldVal.num 200 }

/-- Claim C3: when the error has no valid status-like attribute, the
status equals the response's current status code when that is a number
in `[400, 599]`, else 500. -/
theorem claim_C3_response_fallback (encodeUrl : String → String) (env : String)
    (appEmit onerror : Bool) (req : Req) (res : Res) (e : ErrVal) (r : Responded)
    (hok : finish encodeUrl env appEmit onerror req res (some e)
      = Except.ok (FinishResult.responded r))
    (hnone : getErrorStatusCode e = none) :
    r.status =
      match res.statusCode with
      | FieldVal.num n => if 400 ≤ n ∧ n ≤ 599 then n else 500
      | _ => 500 := by
  have h := (finish_responded_fields encodeUrl env appEmit onerror req res e r hok).1
  rw [h]
  unfold derivedStatus
  rw [hnone]
  dsimp only
  unfold getResponseStatusCode
  cases res.statusCode with
  | num n =>
      dsimp only
      split <;> split <;> omega
  | undef => rfl
  | other => rfl

/-- An error with no usable status fields, for the C3 witness; the
response carries the non-numeric status `'oh no'`, so the status falls
back to 500. -/
def errNoStatusW : ErrVal :=
  { status := FieldVal.undef, statusCode := FieldVal.num 201,
    headers := HeadersField.absent, stack := some "boom", toStr := some "Error: boom" }

def resOhNoW : Res :=
  { headersSentFlag := BoolField.boolean false, hasHeaderBuf := false,
    statusCode := FieldVal.other }

def rC3W : Responded :=
  { status := 500, headers := none, msg := "boom", emits := [], onerrorScheduled := false }

/-- Concrete instance of claim C3: error status 201 and response status
`'oh no'` give 500. -/
theorem claim_C3_response_fallback_witness :
    rC3W.status =
      match resOhNoW.statusCode with
      | FieldVal.num n => if 400 ≤ n ∧ n ≤ 599 then n else 500
      | _ => 500 :=
  claim_C3_response_fallback id "development" false false reqW resOhNoW errNoStatusW rC3W
    (by rfl) (by rfl)

/-- Claim C4: every status `finish` hands to response emission lies in
`[400, 599]`, and is 404 when there was no error. -/
theorem claim_C4_status_range (encodeUrl : String → String) (env : String)
    (appEmit onerror : Bool) (req : Req) (res : Res) (err : Option ErrVal) (r : Responded)
    (hok : finish encodeUrl env appEmit onerror req res err
      = Except.ok (FinishResult.responded r)) :
    (400 ≤ r.status ∧ r.status ≤ 599) ∧ (err = none → r.status = 404) := by
  by_cases hhs : headersSent res
  · rw [finish.eq_def, if_pos hhs] at hok
    simp at hok
  · cases err with
    | none =>
        rw [finish_none_eq encodeUrl env appEmit onerror req res
          (Bool.eq_false_iff.mpr hhs)] at hok
        cases FinishResult.responded.inj (Except.ok.inj hok)
        exact ⟨⟨by norm_num, by norm_num⟩, fun _ => rfl⟩
    | some e =>
        have hst := (finish_responded_fields encodeUrl env appEmit onerror req res e r hok).1
        refine ⟨?_, fun h => by simp at h⟩
        rw [hst]
        unfold derivedStatus
        cases hsc : getErrorStatusCode e with
        | none => exact getResponseStatusCode_range res
        | some s => exact getErrorStatusCode_range e s hsc

def rC4W : Responded :=
  { status := 404, headers := none, msg := "Cannot GET /foo", emits := [],
    onerrorScheduled := false }

/-- Concrete instance of claim C4: the no-error case on a fresh
response gives 404, inside `[400, 599]`. -/
theorem claim_C4_status_range_witness :
    (400 ≤ rC4W.status ∧ rC4W.status ≤ 599) ∧
      ((none : Option ErrVal) = none → rC4W.status = 404) :=
  claim_C4_status_range id "development" false false reqW resFresh none rC4W (by rfl)

/-- Claim C5: when the response's headers have already been sent,
`finish` ends the response immediately (empty write), for any error
argument, deriving no status, writing no body and raising nothing. -/
theorem claim_C5_headers_sent_guard (encodeUrl : String → String) (env : String)
    (appEmit onerror : Bool) (req : Req) (res : Res) (err : Option ErrVal)
    (h : headersSent res = true) :
    finish encodeUrl env appEmit onerror req res err
      = Except.ok FinishResult.alreadySent := by
  unfold finish
  rw [if_pos h]

/-- Concrete instance of claim C5: a response with `headersSent = true`
is ended empty even when an error with a valid status is supplied. -/
theorem claim_C5_headers_sent_guard_witness :
    finish id "development" true true reqW resSent (some errNoStatusW)
      = Except.ok FinishResult.alreadySent :=
  claim_C5_headers_sent_guard id "development" true true reqW resSent
    (some errNoStatusW) (by rfl)

/-- Claim C2: headers from the error are forwarded to response emission
exactly when the status was derived from the error's own status-like
attribute; in the fallback path no error headers are forwarded, and a
`headers` attribute that is not a genuine object is ignored. -/
theorem claim_C2_headers_iff_error_status (encodeUrl : String → String) (env : String)
    (appEmit onerror : Bool) (req : Req) (res : Res) (e : ErrVal) (r : Responded)
    (hok : finish encodeUrl env appEmit onerror req res (some e)
      = Except.ok (FinishResult.responded r)) :
    (r.headers =
      match getErrorStatusCode e with
      | some _ => getErrorHeaders e
      | none => none)
    ∧ (getErrorStatusCode e = none → r.headers = none)
    ∧ (e.headers = HeadersField.nonObject → r.headers = none) := by
  have h := (finish_responded_fields encodeUrl env appEmit onerror req res e r hok).2.1
  refine ⟨?_, ?_, ?_⟩
  · rw [h]
    unfold derivedHeaders
    cases getErrorStatusCode e <;> rfl
  · intro hn
    rw [h]
    unfold derivedHeaders
    rw [hn]
  · intro hno
    rw [h]
    unfold derivedHeaders
    cases getErrorStatusCode e <;> simp [getErrorHeaders, hno]

/-- An error carrying both a valid `statusCode` and a headers object,
for the C2 witness (the `Retry-After` test case). -/
def errRetryW : ErrVal :=
  { status := FieldVal.undef, statusCode := FieldVal.num 429,
    headers := HeadersField.obj [("Retry-After", "5")],
    stack := some "Error: too many requests", toStr := none }

def rC2W : Responded :=
  { status := 429, headers := some [("Retry-After", "5")],
    msg := "Error: too many requests", emits := [], onerrorScheduled := false }

/-- Concrete instance of claim C2: status 429 comes from the error, so
its `Retry-After` header is forwarded. -/
theorem claim_C2_headers_iff_error_status_witness :
    (rC2W.headers =
      match getErrorStatusCode errRetryW with
      | some _ => getErrorHeaders errRetryW
      | none => none)
    ∧ (getErrorStatusCode errRetryW = none → rC2W.headers = none)
    ∧ (errRetryW.headers = HeadersField.nonObject → rC2W.headers = none) :=
  claim_C2_headers_iff_error_status id "development" false false reqW resFresh
    errRetryW rC2W (by rfl)

/-- Claim C6: the document body is produced by HTML-escaping the raw
message, then turning newlines into `<br>`, then turning each
occurrence of two consecutive spaces into a space plus `&nbsp;`, all
wrapped in the fixed template with title `Error`; concretely, the
message `"a  b\nc<"` renders as `"a &nbsp;b<br>c&lt;"` and a
three-space run as `" &nbsp; "`. -/
theorem claim_C6_html_escaping (message : String) :
    createHtmlDocument message = specHtmlDocument message
    ∧ specPreContents "a  b\nc<" = "a &nbsp;b<br>c&lt;"
    ∧ replaceDoubleSpaces "   " = " &nbsp; " := by
  refine ⟨?_, by rfl, by rfl⟩
  unfold createHtmlDocument specHtmlDocument specPreContents
  simp only [String.append_assoc]
  rfl

/-- Claim C7: in production, or when the error provides no stack and no
usable string conversion, the message is `statuses.message[status] ||
String(status)` — the canonical reason phrase, or the stringified
status number when no phrase is registered; in particular the phrase
for 501 is `Not Implemented`, and 499, which has no registered phrase,
stringifies to `"499"`. -/
theorem claim_C7_production_message (e : ErrVal) (status : Int) (env : String)
    (h : env = "production" ∨
      ((e.stack = none ∨ e.stack = some "") ∧ (e.toStr = none ∨ e.toStr = some ""))) :
    getErrorMessage e status env = Except.ok (statusText status)
    ∧ statusText 501 = "Not Implemented"
    ∧ statusText 499 = "499" := by
  refine ⟨?_, by rfl, by rfl⟩
  unfold getErrorMessage
  by_cases henv : env = "production"
  · simp [henv]
  · rcases h with h | ⟨hstack, hts⟩
    · exact absurd h henv
    · have hfs : jsFalsyStr e.stack = true := by
        rcases hstack with h1 | h1 <;> simp [jsFalsyStr, h1]
      rcases hts with h2 | h2
      · simp only [ne_eq, henv, not_false_eq_true, if_true, h2, Option.isSome_none,
          Bool.and_false, Bool.false_eq_true, if_false]
        rcases hstack with h1 | h1 <;> simp [jsOrStr, h1]
      · simp only [ne_eq, henv, not_false_eq_true, if_true, h2, Option.isSome_some,
          Bool.and_true, hfs, if_true, jsCall]
        simp [jsOrStr]

/-- An error with status 501 and no stack, in production mode, for the
C7 witness. -/
def err501W : ErrVal :=
  { status := FieldVal.num 501, statusCode := FieldVal.undef,
    headers := HeadersField.absent, stack := some "Error: boom!\n    at x",
    toStr := some "Error: boom!" }

/-- Concrete instance of claim C7: in production an error carrying
status 501 yields the body text `Not Implemented`, never its stack. -/
theorem claim_C7_production_message_witness :
    getErrorMessage err501W 501 "production" = Except.ok (statusText 501)
    ∧ statusText 501 = "Not Implemented"
    ∧ statusText 499 = "499" :=
  claim_C7_production_message err501W 501 "production" (Or.inl rfl)

/-- A plain-string error value: no own fields, and
`String.prototype.toString` returns the string itself. -/
def strErr (s : String) : ErrVal :=
  { status := FieldVal.undef, statusCode := FieldVal.undef,
    headers := HeadersField.absent, stack := none, toStr := some s }

/-- A numeric error value: no own fields, `Number.prototype.toString`
returns the decimal representation. -/
def numErr (n : Int) : ErrVal :=
  { status := FieldVal.undef, statusCode := FieldVal.undef,
    headers := HeadersField.absent, stack := none, toStr := some (toString n) }

/-- An object created with no prototype: `typeof err.toString` is
`'undefined'`, so calling it would throw. -/
def nullProtoErr : ErrVal :=
  { status := FieldVal.undef, statusCode := FieldVal.undef,
    headers := HeadersField.absent, stack := none, toStr := none }

/-- Claim C9: `finish` completes without raising for every input —
message derivation always produces a message, never a secondary
failure; concretely, a plain string error renders itself, a numeric
error renders its digits, and a prototype-less object falls back to the
status reason phrase. -/
theorem claim_C9_no_exceptions (encodeUrl : String → String) (env : String)
    (appEmit onerror : Bool) (req : Req) (res : Res) (err : Option ErrVal) :
    (∃ v, finish encodeUrl env appEmit onerror req res err = Except.ok v)
    ∧ (∀ (e : ErrVal) (status : Int), ∃ m, getErrorMessage e status env = Except.ok m)
    ∧ getErrorMessage (strErr "lame string") 500 "development"
        = Except.ok "lame string"
    ∧ getErrorMessage (numErr 42) 500 "development" = Except.ok "42"
    ∧ getErrorMessage nullProtoErr 500 "development"
        = Except.ok "Internal Server Error" := by
  refine ⟨?_, fun e status => getErrorMessage_ok e status env, by rfl, by rfl, by rfl⟩
  by_cases hhs : headersSent res
  · refine ⟨FinishResult.alreadySent, ?_⟩
    rw [finish.eq_def, if_pos hhs]
  · cases err with
    | none =>
        exact ⟨_, finish_none_eq encodeUrl env appEmit onerror req res
          (Bool.eq_false_iff.mpr hhs)⟩
    | some e =>
        obtain ⟨m, hm⟩ := getErrorMessage_ok e (derivedStatus res e) env
        exact ⟨_, finish_some_eq encodeUrl env appEmit onerror req res e m
          (Bool.eq_false_iff.mpr hhs) hm⟩

/-- Claim C8: the body write never precedes the request-finished event:
when the request is already finished the write is the immediate and
only action of `sendResponse`; otherwise `sendResponse` unpipes the
request, registers the write as a one-shot completion listener and
resumes the stream, and on the resulting timeline every body write is
preceded by the request-finished event while still occurring exactly
once (the draining terminates). -/
theorem claim_C8_write_after_request_finished (reqDone : Bool) :
    ((sendTimeline reqDone).count StreamEv.bodyWrite = 1)
    ∧ (∀ i : Fin (sendTimeline reqDone).length,
        (sendTimeline reqDone).get i = StreamEv.bodyWrite →
        ∃ j : Fin (sendTimeline reqDone).length,
          (j : Nat) < (i : Nat) ∧ (sendTimeline reqDone).get j = StreamEv.reqFinished)
    ∧ (reqDone = true → sendResponse reqDone = [SendAct.writeBody])
    ∧ (reqDone = false → sendResponse reqDone
        = [SendAct.unpipeReq, SendAct.registerWrite, SendAct.resumeReq]) := by
  cases reqDone <;> decide

/-- Concrete instance of claim C8: on an unfinished request the write
happens exactly once, after unpipe/register/resume and the finish of
the request stream. -/
theorem claim_C8_write_after_request_finished_witness :
    (sendTimeline false).count StreamEv.bodyWrite = 1
    ∧ sendResponse false
        = [SendAct.unpipeReq, SendAct.registerWrite, SendAct.resumeReq] :=
  ⟨(claim_C8_write_after_request_finished false).1,
   (claim_C8_write_after_request_finished false).2.2.2 rfl⟩

/-- Claim C10: when headers were not already sent and an app handle
with an emit function was supplied, exactly one `errorDispatch` event
is emitted — also when `finish` is called with no error — and its
`url` payload is the percent-encoded original request pathname,
falling back to `"resource"`, not the full request URL. -/
theorem claim_C10_error_dispatch (encodeUrl : String → String) (env : String)
    (onerror : Bool) (req : Req) (res : Res) (err : Option ErrVal) (r : Responded)
    (hns : headersSent res = false)
    (hok : finish encodeUrl env true onerror req res err
      = Except.ok (FinishResult.responded r)) :
    r.emits = [{ event := "errorDispatch", method := req.method,
                 url := encodeUrl (getResourceName req) }]
    ∧ getResourceName req =
        (match req.originalPathname with
         | some p => p
         | none => "resource") := by
  constructor
  · cases err with
    | none =>
        rw [finish_none_eq encodeUrl env true onerror req res hns] at hok
        cases FinishResult.responded.inj (Except.ok.inj hok)
        simp [dispatchEmits]
    | some e =>
        have h := (finish_responded_fields encodeUrl env true onerror req res e r hok).2.2
        rw [h]
        simp [dispatchEmits]
  · unfold getResourceName parseUrlOriginalPathname
    cases req.originalPathname <;> rfl

/-- A request whose URL cannot be parsed, for the C10 witness. -/
def reqNoUrlW : Req := { method := "GET", originalPathname := none, finished := true }

def rC10W : Responded :=
  { status := 404, headers := none, msg := "Cannot GET resource",
    emits := [{ event := "errorDispatch", method := "GET", url := "resource" }],
    onerrorScheduled := false }

/-- Concrete instance of claim C10: the not-found case on an unparsable
URL emits one `errorDispatch` whose `url` is the fallback
`"resource"`. -/
theorem claim_C10_error_dispatch_witness :
    rC10W.emits = [{ event := "errorDispatch", method := reqNoUrlW.method,
                     url := id (getResourceName reqNoUrlW) }]
    ∧ getResourceName reqNoUrlW =
        (match reqNoUrlW.originalPathname with
         | some p => p
         | none => "resource") :=
  claim_C10_error_dispatch id "development" false reqNoUrlW resFresh none rC10W
    (by rfl) (by rfl)

end Finalhandler
